import Mathlib

set_option linter.unusedVariables false

/-!
Verification of the request-lifecycle outcome pipeline of the
user-profile-editor repository: a shallow embedding of the RxJS stream
operators (tapResponseData, tapValidationErrors, tapUploadProgress,
tapError), the server-error HTTP interceptor, and the form handler
(pristine computation, validation-error injection), together with proofs
about them.

JavaScript runtime values are modelled by `JsValue`; Angular HTTP events
by `HttpEventM`.  Each Lean definition is translated from the TypeScript
source it is named after.
-/

/-- A JavaScript runtime value.  `obj` is a plain object (object literal /
JSON-parsed object, in the sense of lodash isPlainObject), `classObj` is an
object whose prototype is not Object.prototype (a class instance), `arr`
is an Array.  Numbers are modelled as integers: every numeric value the
pipeline manipulates (HTTP status codes, byte counters, percentages) is
integral. -/
inductive JsValue where
  | undefined
  | null
  | bool (b : Bool)
  | num (n : Int)
  | str (s : String)
  | arr (elems : List JsValue)
  | obj (fields : List (String × JsValue))
  | classObj (fields : List (String × JsValue))

/-- JavaScript strict equality `v === "s"` against a string literal. -/
def strictEqStr (v : JsValue) (s : String) : Bool :=
  match v with
  | .str t => t == s
  | _ => false

/-- JavaScript strict equality `v === n` against a numeric literal. -/
def strictEqNum (v : JsValue) (n : Int) : Bool :=
  match v with
  | .num m => m == n
  | _ => false

/-- Is the value null or undefined (the values on which property access
throws a TypeError). -/
def isNullish : JsValue → Bool
  | .null => true
  | .undefined => true
  | _ => false

/-- JavaScript strict equality `v === undefined`. -/
def isUndefinedVal : JsValue → Bool
  | .undefined => true
  | _ => false

/-- JavaScript truthiness: undefined, null, false, 0 and the empty string
are falsy, everything else (including every object and array) is truthy. -/
def truthy : JsValue → Bool
  | .undefined => false
  | .null => false
  | .bool b => b
  | .num n => n != 0
  | .str s => s != ""
  | .arr _ => true
  | .obj _ => true
  | .classObj _ => true

/-- lodash isPlainObject: true exactly for objects created as literals (or
by Object / JSON) — not arrays, not class instances, not primitives. -/
def isPlainObject : JsValue → Bool
  | .obj _ => true
  | _ => false

/-- First-match lookup in an object field list. -/
def lookupField : List (String × JsValue) → String → Option JsValue
  | [], _ => none
  | (k, v) :: rest, key => if k == key then some v else lookupField rest key

/-- Property access `v[key]` on a non-nullish value: own property of an
object or class instance, `undefined` otherwise (primitives box to objects
without such properties; array index/length properties are not used by the
code under verification). -/
def getProp (v : JsValue) (key : String) : JsValue :=
  match v with
  | .obj fields => (lookupField fields key).getD .undefined
  | .classObj fields => (lookupField fields key).getD .undefined
  | _ => .undefined

/-- The `key in v` test for objects (only ever applied after an
isPlainObject guard in the source). -/
def hasProp (v : JsValue) (key : String) : Bool :=
  match v with
  | .obj fields => (lookupField fields key).isSome
  | .classObj fields => (lookupField fields key).isSome
  | _ => false

/-- Own property for lodash pick: present keys only. -/
def getOwn (v : JsValue) (key : String) : Option JsValue :=
  match v with
  | .obj fields => lookupField fields key
  | .classObj fields => lookupField fields key
  | _ => none

/-- Object.keys. -/
def objKeys : JsValue → List String
  | .obj fields => fields.map Prod.fst
  | .classObj fields => fields.map Prod.fst
  | _ => []

/-- lodash pick(v, keys): a fresh plain object holding, in the order of
`keys`, each requested key that `v` actually has, with its value. -/
def pick (v : JsValue) (keys : List String) : JsValue :=
  .obj (keys.filterMap (fun k => (getOwn v k).map (fun val => (k, val))))

/-- JavaScript ToString on the primitive values that reach property-key and
form-control-path positions in the code (fields and codes of validation
entries are strings in the ApiValidationErrorResponse type; the other
branches are given their JS renderings for totality). -/
def jsToString : JsValue → String
  | .undefined => "undefined"
  | .null => "null"
  | .bool b => if b then "true" else "false"
  | .num n => toString n
  | .str s => s
  | .arr _ => ""
  | .obj _ => "[object Object]"
  | .classObj _ => "[object Object]"

/-- Numeric read of a value that the TypeScript types declare to be a
number (loaded / total byte counters of progress events). -/
def getNumD : JsValue → Int
  | .num n => n
  | _ => 0

/-- First key list contained in second, comparing names only. -/
def keysSubset (fs gs : List (String × JsValue)) : Bool :=
  fs.all (fun kv => gs.any (fun kw => kw.1 == kv.1))

/-- Field lookup defaulting to undefined, used by the deep-equality
recursion. -/
def lookupD (gs : List (String × JsValue)) (k : String) : JsValue :=
  (lookupField gs k).getD .undefined

mutual
/-- lodash isEqual: structural deep equality; objects are compared by key
set (order-insensitively) and then value-wise, arrays element-wise in
order. -/
def jsEqual : JsValue → JsValue → Bool
  | .undefined, .undefined => true
  | .null, .null => true
  | .bool a, .bool b => a == b
  | .num a, .num b => a == b
  | .str a, .str b => a == b
  | .arr xs, b =>
    match b with
    | .arr ys => jsEqualElems xs ys
    | _ => false
  | .obj fs, b =>
    match b with
    | .obj gs => keysSubset fs gs && keysSubset gs fs && jsEqualFields fs gs
    | _ => false
  | .classObj fs, b =>
    match b with
    | .classObj gs => keysSubset fs gs && keysSubset gs fs && jsEqualFields fs gs
    | _ => false
  | _, _ => false

/-- Value-wise comparison of the first field list against lookups in the
second (the key sets are already known to coincide when this is called). -/
def jsEqualFields : List (String × JsValue) → List (String × JsValue) → Bool
  | [], _ => true
  | (k, v) :: rest, gs => jsEqual v (lookupD gs k) && jsEqualFields rest gs

/-- Element-wise array comparison. -/
def jsEqualElems : List JsValue → List JsValue → Bool
  | [], [] => true
  | x :: xs, y :: ys => jsEqual x y && jsEqualElems xs ys
  | _, _ => false
end

/-- JavaScript Math.round(num/den) for integer num, den: round half toward
positive infinity, i.e. the floor of num/den + 1/2.  (For den = 0 the
source expression is never evaluated: every call site guards on a truthy
total.) -/
def mathRound (num den : Int) : Int :=
  if den < 0 then Int.fdiv (2 * (-num) + (-den)) (2 * (-den))
  else Int.fdiv (2 * num + den) (2 * den)

/-! ## Angular HTTP events, responses and errors -/

/-- An Angular HttpEvent as emitted by HttpClient with observe set to
events.  Sent, UploadProgress, DownloadProgress and User events are plain
object literals at runtime; HttpHeaderResponse and HttpResponse are class
instances.  The numeric HttpEventType tags are Sent = 0, UploadProgress =
1, ResponseHeader = 2, DownloadProgress = 3, Response = 4, User = 5. -/
inductive HttpEventM where
  | sent
  | uploadProgress (loaded : Int) (total : Option Int)
  | downloadProgress (loaded : Int) (total : Option Int)
  | responseHeader (status : Int) (ok : Bool) (headerKeys : List String)
  | response (status : Int) (ok : Bool) (headerKeys : List String) (body : JsValue)
  | user

/-- The runtime JsValue shape of each event (the object a duck-typed check
such as isPlainObject or a property read actually sees). -/
def eventRuntime : HttpEventM → JsValue
  | .sent => .obj [("type", .num 0)]
  | .uploadProgress l t =>
      .obj ([("type", .num 1), ("loaded", .num l)]
        ++ (match t with | some n => [("total", .num n)] | none => []))
  | .downloadProgress l t =>
      .obj ([("type", .num 3), ("loaded", .num l)]
        ++ (match t with | some n => [("total", .num n)] | none => []))
  | .responseHeader st ok hk =>
      .classObj [("type", .num 2), ("status", .num st), ("ok", .bool ok)]
  | .response st ok hk body =>
      .classObj [("type", .num 4), ("status", .num st), ("ok", .bool ok), ("body", body)]
  | .user => .obj [("type", .num 5)]

/-- A value of the HttpClientResponse union type: either an HttpEvent (the
observe events mode) or a bare response body (the observe body mode). -/
inductive HttpClientValue where
  | event (e : HttpEventM)
  | body (v : JsValue)

/-- The runtime value a stream consumer sees. -/
def runtimeOf : HttpClientValue → JsValue
  | .event e => eventRuntime e
  | .body v => v

/-- An error travelling on the error channel of the stream:
an HttpErrorResponse (status, ok flag, response header keys, and the
error body), or one of the interceptor's synthesized Error subclasses, or
a TypeError raised by the classifier itself, or any other Error. -/
inductive ErrorValue where
  | httpError (status : Int) (ok : Bool) (headerKeys : List String) (errBody : JsValue)
  | bodyFormatError
  | noNetworkError (wasCaught : Bool)
  | typeError
  | otherError

/-- The `error` property of an error object: the response body for an
HttpErrorResponse, undefined for plain Error instances. -/
def errorBody : ErrorValue → JsValue
  | .httpError _ _ _ b => b
  | _ => .undefined

/-! ## tap-response-data.ts -/

/-- isPlainResponse (tap-response-data.ts): the value is truthy, a plain
object, has a data property, and its status property is the string ok. -/
def isPlainResponse (response : JsValue) : Bool :=
  truthy response
    && isPlainObject response
    && hasProp response "data"
    && strictEqStr (getProp response "status") "ok"

/-- The single-value action of the tapResponseData operator: the argument
the callback is invoked with, if it is invoked.  First branch:
isResponseInstance — the value is an HttpResponse instance whose body is a
plain success response; the callback receives value.body.data.  Second
branch: isPlainResponse on the value itself — the callback receives
value.data.  An HttpResponse instance that fails the first branch also
fails the second, because a class instance is not a plain object. -/
def tapResponseDataCall : HttpClientValue → Option JsValue
  | .event (.response _ _ _ body) =>
      if isPlainResponse body then some (getProp body "data") else none
  | v =>
      let rv := runtimeOf v
      if isPlainResponse rv then some (getProp rv "data") else none

/-! ## tap-upload-progress.ts -/

/-- The single-value action of the tapUploadProgress operator: the
progress percentage handed to the callback, if any.  The source checks
isPlainObject(event), event.type === HttpEventType.UploadProgress and a
truthy event.total, then reports Math.round((100 * event.loaded) /
event.total). -/
def tapUploadProgressCall (value : HttpClientValue) : Option Int :=
  let ev := runtimeOf value
  if isPlainObject ev
      && strictEqNum (getProp ev "type") 1
      && truthy (getProp ev "total") then
    some (mathRound (100 * getNumD (getProp ev "loaded")) (getNumD (getProp ev "total")))
  else none

/-! ## tap-validation-errors.ts and tap-error.ts -/

/-- instanceof HttpErrorResponse with status === HttpStatusCode.BadRequest. -/
def is400ResponseError : ErrorValue → Bool
  | .httpError st _ _ _ => st == 400
  | _ => false

/-- The error-channel action of the tapValidationErrors operator: on an
HttpErrorResponse with status 400 the callback receives the error and the
operator returns EMPTY (first component: the callback argument, second:
the error it rethrows otherwise). -/
def tapValidationErrorsCatch (error : ErrorValue) : Option ErrorValue × Option ErrorValue :=
  match error with
  | .httpError st ok hk b =>
      if st == 400 then (some (.httpError st ok hk b), none) else (none, some error)
  | e => (none, some e)

/-- Reflect.get(error, wasCaught-key) || false, as read by tapError. -/
def errWasCaught : ErrorValue → Bool
  | .noNetworkError wc => wc
  | _ => false

/-- The error-channel action of the tapError operator: the callback always
receives the error together with its wasCaught flag, and the operator
returns EMPTY (no error is rethrown). -/
def tapErrorCatch (error : ErrorValue) : (ErrorValue × Bool) × Option ErrorValue :=
  ((error, errWasCaught error), none)

/-! ## server-error.interceptor.ts -/

/-- The two notification messages of the interceptor. -/
def internalErrorMsg : String := "An internal error has occurred. Please try again later."

/-- The no-connection notification message. -/
def noConnectionMsg : String := "No network connection. Please try again later."

/-- check200ResponseBodyFormat: the body is a plain object whose status
property is the string ok and whose data property is not undefined. -/
def check200ResponseBodyFormat (body : JsValue) : Bool :=
  isPlainObject body
    && strictEqStr (getProp body "status") "ok"
    && !isUndefinedVal (getProp body "data")

/-- checkInvalid200Response: the event is an HttpResponse instance with
status HttpStatusCode.Ok (200) whose body fails the format check.  Events
other than HttpResponse instances never match. -/
def checkInvalid200Response : HttpEventM → Bool
  | .response st _ _ body => st == 200 && !check200ResponseBodyFormat body
  | _ => false

/-- checkNoNetworkConnection: the error is an HttpErrorResponse with no
header keys, ok false and status falsy (0), whose error body has falsy
loaded and total properties.  The source reads error.error.loaded without
guarding error.error, so when the error body is null or undefined the
predicate throws a TypeError instead of returning; the Except error value
models that thrown TypeError.  The conjunction is evaluated left to right
with short-circuiting, exactly as in the source. -/
def checkNoNetworkConnection : ErrorValue → Except Unit Bool
  | .httpError status ok headerKeys errBody =>
      if headerKeys.length != 0 then .ok false
      else if ok then .ok false
      else if status != 0 then .ok false
      else if isNullish errBody then .error ()
      else if truthy (getProp errBody "loaded") then .ok false
      else .ok (!truthy (getProp errBody "total"))
  | _ => .ok false

/-- The catchError stage of the first interceptor variant (the one that
routes every error through a message table): a network-unreachable error
is replaced by an HttpNoNetworkConnectionError with wasCaught set and
notified; a 400 Bad Request is deliberately skipped (empty message, no
snackbar) because tapValidationErrors handles it; every other error is
notified with the generic internal-error message.  In all cases the
(possibly replaced) error is rethrown.  A TypeError thrown by
checkNoNetworkConnection itself propagates with no notification. -/
def interceptorV1Error (error : ErrorValue) : List String × ErrorValue :=
  match checkNoNetworkConnection error with
  | .error _ => ([], .typeError)
  | .ok true => ([noConnectionMsg], .noNetworkError true)
  | .ok false =>
      if is400ResponseError error then ([], error)
      else ([internalErrorMsg], error)

/-- The result of the second interceptor variant on one stream
notification: the notifications it opened, the number of console warnings
it logged, and what it forwarded downstream. -/
structure InterceptOut where
  notifications : List String
  warns : Nat
  forwarded : Except ErrorValue HttpEventM

/-- The catchError stage of the second interceptor variant: only
network-unreachable errors are handled (notified, logged, replaced by an
HttpNoNetworkConnectionError with wasCaught true); everything else is
rethrown untouched.  A TypeError thrown by checkNoNetworkConnection
propagates with no notification. -/
def interceptErrorV2 (error : ErrorValue) : InterceptOut :=
  match checkNoNetworkConnection error with
  | .error _ => ⟨[], 0, .error .typeError⟩
  | .ok true => ⟨[noConnectionMsg], 1, .error (.noNetworkError true)⟩
  | .ok false => ⟨[], 0, .error error⟩

/-- serverErrorInterceptor (second variant) acting on one stream
notification.  On an event, the tap stage checks for an invalid 200
response; if so it notifies, logs, and throws an
HttpResponseBodyFormatError, which then travels through the catchError
stage of the same pipe.  On an error, only the catchError stage runs. -/
def serverErrorInterceptorV2 : Except ErrorValue HttpEventM → InterceptOut
  | .ok e =>
      if checkInvalid200Response e then
        let o := interceptErrorV2 .bodyFormatError
        ⟨internalErrorMsg :: o.notifications, 1 + o.warns, o.forwarded⟩
      else ⟨[], 0, .ok e⟩
  | .error err => interceptErrorV2 err

/-! ## form-handler.service.ts -/

/-- The error-relevant state of an Angular FormGroup: each control by name
with its ValidationErrors object (none models errors = null), plus the
errors object of the group itself.  Error objects are key-to-message maps. -/
structure FormGroupState where
  controls : List (String × Option (List (String × JsValue)))
  groupErrors : Option (List (String × JsValue))

/-- The field name of a validation entry, as used for form.get. -/
def entryField (e : JsValue) : String := jsToString (getProp e "field")

/-- The error code of a validation entry, as used for the computed
property key of the errors object. -/
def entryCode (e : JsValue) : String := jsToString (getProp e "code")

/-- One iteration of the forEach in setFormErrors:
form.get(error.field)?.setErrors({[error.code]: error.message}) — if a
control with that name exists, its entire errors object is replaced by the
one-key object, otherwise nothing happens. -/
def applyEntry (fs : FormGroupState) (e : JsValue) : FormGroupState :=
  { fs with controls := fs.controls.map (fun c =>
      if c.1 == entryField e then (c.1, some [(entryCode e, getProp e "message")]) else c) }

/-- setFormErrors (form-handler.service.ts): with a falsy payload or a
falsy errors property, form.setErrors(null) clears the group errors (and
returns); otherwise the errors array is iterated in order with applyEntry.
Calling forEach on a truthy non-array errors value would throw in JS; such
values lie outside the ApiValidationErrorResponse type and outside every
claim, and are mapped to the unchanged state. -/
def setFormErrors (fs : FormGroupState) (errorResponse : JsValue) : FormGroupState :=
  if !truthy errorResponse || !truthy (getProp errorResponse "errors") then
    { fs with groupErrors := none }
  else
    match getProp errorResponse "errors" with
    | .arr entries => entries.foldl applyEntry fs
    | _ => fs

/-- isFormPristine (form-handler.service.ts): Boolean(lastSavedData) &&
Boolean(form.value) && isEqual(form.value, pick(lastSavedData,
Object.keys(form.value))). -/
def isFormPristine (formValue : JsValue) (lastSavedData : JsValue) : Bool :=
  truthy lastSavedData
    && truthy formValue
    && jsEqual formValue (pick lastSavedData (objKeys formValue))

/-! ## The save pipeline of user-profile.component.ts

The component pipes the save request observable through finalize (reset of
the in-flight flag and the progress bar), tapResponseData (store data,
restore the form, success notification), tapValidationErrors (push the 400
payload into the form), and tapUploadProgress (progress bar update), then
subscribes.  A run of the pipeline over the delivered stream is modelled
as the ordered list of state-changing actions it performs. -/

/-- An observable state change performed by the save pipeline. -/
inductive UiAction where
  | setSaving (b : Bool)
  | setProgress (p : Int)
  | storeUserData (v : JsValue)
  | restoreFormAction
  | notifyUser (m : String)
  | applyValidationErrors (body : JsValue)

/-- The success notification text of the save pipeline. -/
def savedMsg : String := "The profile was successfully saved"

/-- The actions one next-notification of the save stream causes: the
tapResponseData callback (store the data, restore the form, notify
success) if the event carries a success envelope, then the
tapUploadProgress callback (update the progress bar) if it is a reportable
upload-progress event. -/
def saveEventActions (e : HttpEventM) : List UiAction :=
  (match tapResponseDataCall (.event e) with
   | some d => [.storeUserData d, .restoreFormAction, .notifyUser savedMsg]
   | none => [])
  ++ (match tapUploadProgressCall (.event e) with
      | some p => [.setProgress p]
      | none => [])

/-- The actions the terminal notification causes before the finalize
callback: nothing on normal completion; on an error, tapValidationErrors
either absorbs a 400 (pushing its payload into the form, completing the
stream) or rethrows, in which case the error escapes the pipeline.  The
second component is the escaping error. -/
def saveTerminalActions : Option ErrorValue → List UiAction × Option ErrorValue
  | none => ([], none)
  | some err =>
      match tapValidationErrorsCatch err with
      | (some caught, _) => ([.applyValidationErrors (errorBody caught)], none)
      | (none, propagated) => ([], propagated)

/-- One full run of the save pipeline over a delivered stream (a list of
events followed by either completion or an error): isSaveRequestInProgress
is set synchronously on invocation; each event is processed in order; the
terminal notification is processed; and the finalize callback then runs its
teardown exactly once — isSaveRequestInProgress := false and
uploadProgress := 0 — whatever the terminal kind was. -/
def saveRun (events : List HttpEventM) (terminal : Option ErrorValue) :
    List UiAction × Option ErrorValue :=
  let t := saveTerminalActions terminal
  (UiAction.setSaving true ::
    ((events.map saveEventActions).flatten
      ++ t.1
      ++ [UiAction.setSaving false, UiAction.setProgress 0]),
   t.2)

/-! ## The 400-failure path: interceptor variant 1 followed by
tapValidationErrors and the component's setFormErrors callback. -/

/-- The observable outcome of delivering one raw error through the
interceptor and the component's tapValidationErrors stage. -/
structure ValidationOutcome where
  notifications : List String
  callbackPayloads : List JsValue
  formState : FormGroupState
  propagated : Option ErrorValue

/-- A raw failure as processed by interceptor variant 1 and then by the
component's tapValidationErrors operator, whose callback feeds
errors.error to setFormErrors. -/
def handleSaveFailure (err : ErrorValue) (fs : FormGroupState) : ValidationOutcome :=
  let i := interceptorV1Error err
  match tapValidationErrorsCatch i.2 with
  | (some caught, _) =>
      ⟨i.1, [errorBody caught], setFormErrors fs (errorBody caught), none⟩
  | (none, propagated) => ⟨i.1, [], fs, propagated⟩

/-! ## Definitions written from the words of the specification

These are not translations of the source: they restate the claims of the
specification, to be compared with the source translations above. -/

/-- The success envelope as the specification words it for
classification: a plain object with status ok and a defined (not
undefined) data field. -/
def specSuccessEnvelope (v : JsValue) : Bool :=
  isPlainObject v
    && strictEqStr (getProp v "status") "ok"
    && !isUndefinedVal (getProp v "data")

/-- Which emitted values match the success envelope according to the claim:
a bare plain object of the envelope shape, or an HttpResponse whose body
has the envelope shape; progress and other lifecycle events never match. -/
def claimSuccessMatch : HttpClientValue → Bool
  | .event (.response _ _ _ body) => specSuccessEnvelope body
  | .event _ => false
  | .body v => specSuccessEnvelope v

/-- The amended envelope: a plain object with status ok whose data key is
present — possibly holding undefined (key presence, not definedness, is
what the source tests). -/
def specSuccessEnvelopeKeyPresent (v : JsValue) : Bool :=
  isPlainObject v
    && strictEqStr (getProp v "status") "ok"
    && hasProp v "data"

/-- The amended matching relation for tapResponseData. -/
def claimSuccessMatchAmended : HttpClientValue → Bool
  | .event (.response _ _ _ body) => specSuccessEnvelopeKeyPresent body
  | .event _ => false
  | .body v => specSuccessEnvelopeKeyPresent v

/-- The data field of the envelope a value carries. -/
def envelopeData : HttpClientValue → JsValue
  | .event (.response _ _ _ body) => getProp body "data"
  | .event _ => .undefined
  | .body v => getProp v "data"

/-- The specification's progress-reporting condition: an upload-progress
event whose total is present and nonzero. -/
def isReportableProgress : HttpEventM → Bool
  | .uploadProgress _ (some t) => t != 0
  | _ => false

/-- The specification's reported value: round(100 * loaded / total). -/
def reportedPercent : HttpEventM → Int
  | .uploadProgress l (some t) => mathRound (100 * l) t
  | _ => 0

/-- The percents the tapUploadProgress operator reports over a sequence of
upload-progress events with the given loaded values and a fixed total. -/
def reportedPercents (total : Int) (loadeds : List Int) : List Int :=
  loadeds.filterMap (fun l => tapUploadProgressCall (.event (.uploadProgress l (some total))))

/-- The pristine predicate as the claim words it: lastSaved is non-null,
the form's current value set is non-empty, and the projection of lastSaved
onto the form's current key set is deep-equal to the form's current value
set. -/
def isPristineSpec (formValue : JsValue) (lastSavedData : JsValue) : Bool :=
  !isNullish lastSavedData
    && !(objKeys formValue).isEmpty
    && jsEqual formValue (pick lastSavedData (objKeys formValue))

/-- The pristine predicate of the amended claim: the non-emptiness
condition is dropped — Boolean(form.value) is true for every object,
empty or not — leaving: lastSaved is non-null and the projection of
lastSaved onto the form's key set is deep-equal to the form's value set. -/
def isPristineSpecAmended (formValue : JsValue) (lastSavedData : JsValue) : Bool :=
  !isNullish lastSavedData
    && jsEqual formValue (pick lastSavedData (objKeys formValue))

/-- The validation-error envelope of the wire contract: a plain object
with a string message and an errors array of entries, each a plain object
with string field, code and message. -/
def isValidationEntry (v : JsValue) : Bool :=
  isPlainObject v
    && (match getProp v "field" with | .str _ => true | _ => false)
    && (match getProp v "code" with | .str _ => true | _ => false)
    && (match getProp v "message" with | .str _ => true | _ => false)

/-- The envelope shape check for a 400 body. -/
def isValidationEnvelope (v : JsValue) : Bool :=
  isPlainObject v
    && (match getProp v "message" with | .str _ => true | _ => false)
    && (match getProp v "errors" with
        | .arr es => es.all isValidationEntry
        | _ => false)

/-- The error map the claim's wording assigns to one field: every entry
for the field is written in order into one map, a later entry overriding
an earlier one only when both carry the same code. -/
def specFieldErrors (entries : List JsValue) (f : String) : List (String × JsValue) :=
  entries.foldl (fun acc e =>
    if f == entryField e then
      acc.filter (fun p => p.1 != entryCode e) ++ [(entryCode e, getProp e "message")]
    else acc) []

/-- setFormErrors as the claim words it: with an absent payload or no
errors array, all field errors are cleared; otherwise every mentioned
control receives the accumulated map of its entries and unmentioned
controls are untouched. -/
def specSetFormErrors (fs : FormGroupState) (payload : JsValue) : FormGroupState :=
  if isNullish payload
      || !(match getProp payload "errors" with | .arr _ => true | _ => false) then
    { controls := fs.controls.map (fun c => (c.1, none)), groupErrors := none }
  else
    match getProp payload "errors" with
    | .arr entries =>
        { fs with controls := fs.controls.map (fun c =>
            if entries.any (fun e => c.1 == entryField e) then
              (c.1, some (specFieldErrors entries c.1))
            else c) }
    | _ => fs

/-- The last entry of the list naming the given field, if any. -/
def lastEntryFor (entries : List JsValue) (f : String) : Option JsValue :=
  entries.foldl (fun acc e => if f == entryField e then some e else acc) none

/-- setFormErrors as amended: a falsy payload or falsy errors property
sets the group's own errors to null and leaves every control untouched;
otherwise each mentioned control ends up with exactly the one-code error
object of the last entry naming it, unmentioned controls and the group
errors are untouched, and unknown field names are skipped. -/
def amendedSetFormErrors (fs : FormGroupState) (payload : JsValue) : FormGroupState :=
  if !truthy payload || !truthy (getProp payload "errors") then
    { fs with groupErrors := none }
  else
    match getProp payload "errors" with
    | .arr entries =>
        { fs with controls := fs.controls.map (fun c =>
            match lastEntryFor entries c.1 with
            | some e => (c.1, some [(entryCode e, getProp e "message")])
            | none => c) }
    | _ => fs

/-- Does the action reset the in-flight flag (the assignment
isSaveRequestInProgress := false)? -/
def isSavingReset : UiAction → Bool
  | .setSaving b => !b
  | _ => false

/-- The values the DataType | null parameter of isFormPristine can take:
a domain object, or null, or undefined. -/
def isDataDomain : JsValue → Bool
  | .null => true
  | .undefined => true
  | .obj _ => true
  | _ => false

/-- The first option when it is some, the second otherwise; used to state
how lastEntryFor unfolds over a cons. -/
def orDefault (o : Option JsValue) (init : Option JsValue) : Option JsValue :=
  match o with
  | some x => some x
  | none => init

/-- A form state in which the name control already carries a required
error and the email control carries none. -/
def fs0C6 : FormGroupState :=
  ⟨[("name", some [("required", .str "req")]), ("email", none)], none⟩

/-- A validation payload with two entries for the same field under two
different codes. -/
def payloadC6 : JsValue :=
  .obj [("message", .str "Validation failed"),
    ("errors", .arr [
      .obj [("field", .str "name"), ("code", .str "c1"), ("message", .str "m1")],
      .obj [("field", .str "name"), ("code", .str "c2"), ("message", .str "m2")]])]

/-! ## Supporting lemmas -/

/-- The truthiness conjunct of isPlainResponse is redundant: a plain
object is always truthy, so the source predicate coincides with the
key-presence envelope check. -/
theorem isPlainResponse_eq_keyPresent (v : JsValue) :
    isPlainResponse v = specSuccessEnvelopeKeyPresent v := by
  cases v <;> simp [isPlainResponse, specSuccessEnvelopeKeyPresent, truthy, isPlainObject,
    Bool.and_comm, Bool.and_left_comm]

/-! ## C1 -/

/-- C1 counterexample.  The claim states that the callback fires only for
values matching the success envelope with a defined data field.  The bare
plain object with status ok whose data key holds undefined does not match
that envelope, yet tapResponseData invokes its callback on it (with
undefined): isPlainResponse tests key presence, not definedness. -/
theorem c1_counterexample :
    tapResponseDataCall (.body (.obj [("status", .str "ok"), ("data", .undefined)]))
        = some .undefined
      ∧ claimSuccessMatch (.body (.obj [("status", .str "ok"), ("data", .undefined)]))
        = false := by
  exact ⟨rfl, rfl⟩

/-- C1 (amended): for every emitted value, tapResponseData invokes its
callback exactly once with the envelope's data field when the value is a
bare plain object with status ok and a data key present (possibly holding
undefined), or a wrapped HttpResponse whose body matches that shape; for
every other value (progress events, lifecycle events, non-envelope
bodies) the callback is not invoked. -/
theorem c1_tapResponseData_amended (v : HttpClientValue) :
    tapResponseDataCall v
      = if claimSuccessMatchAmended v then some (envelopeData v) else none := by
  cases v with
  | body b =>
      simp only [tapResponseDataCall, runtimeOf, claimSuccessMatchAmended, envelopeData,
        isPlainResponse_eq_keyPresent]
  | event e =>
      cases e with
      | response st ok hk body =>
          simp only [tapResponseDataCall, claimSuccessMatchAmended, envelopeData,
            isPlainResponse_eq_keyPresent]
      | sent =>
          simp [tapResponseDataCall, runtimeOf, eventRuntime, claimSuccessMatchAmended,
            isPlainResponse, hasProp, lookupField]
      | user =>
          simp [tapResponseDataCall, runtimeOf, eventRuntime, claimSuccessMatchAmended,
            isPlainResponse, hasProp, lookupField]
      | responseHeader st ok hk =>
          simp [tapResponseDataCall, runtimeOf, eventRuntime, claimSuccessMatchAmended,
            isPlainResponse, isPlainObject, truthy]
      | uploadProgress l t =>
          cases t <;>
            simp [tapResponseDataCall, runtimeOf, eventRuntime, claimSuccessMatchAmended,
              isPlainResponse, hasProp, lookupField]
      | downloadProgress l t =>
          cases t <;>
            simp [tapResponseDataCall, runtimeOf, eventRuntime, claimSuccessMatchAmended,
              isPlainResponse, hasProp, lookupField]

/-! ## C3 -/

/-- C3: every HttpResponse with status 200 whose body fails the envelope
check is intercepted: the second interceptor variant opens exactly one
snackbar with the generic internal-error message, logs once, and forwards
a synthesized HttpResponseBodyFormatError downstream (the response is
never silently swallowed). -/
theorem c3_malformed_200_interception (ok : Bool) (hk : List String) (body : JsValue)
    (h : check200ResponseBodyFormat body = false) :
    serverErrorInterceptorV2 (.ok (.response 200 ok hk body))
      = ⟨[internalErrorMsg], 1, .error .bodyFormatError⟩ := by
  simp [serverErrorInterceptorV2, checkInvalid200Response, h, interceptErrorV2,
    checkNoNetworkConnection]

/-- C3 witness: Scenario C — a 200 response with body {foo: bar}. -/
theorem c3_malformed_200_interception_witness :
    check200ResponseBodyFormat (.obj [("foo", .str "bar")]) = false
      ∧ serverErrorInterceptorV2 (.ok (.response 200 true [] (.obj [("foo", .str "bar")])))
        = ⟨[internalErrorMsg], 1, .error .bodyFormatError⟩ :=
  ⟨rfl, c3_malformed_200_interception true [] (.obj [("foo", .str "bar")]) rfl⟩

/-! ## C10 -/

/-- C10: the network-unreachable predicate is not total.  On an
HttpErrorResponse with empty headers, ok false, status 0 and a null (or
undefined) error body, checkNoNetworkConnection dereferences
error.error.loaded and throws a TypeError instead of returning a boolean;
the interceptor's catchError stage then propagates that TypeError with no
notification. -/
theorem c10_network_predicate_not_total :
    checkNoNetworkConnection (.httpError 0 false [] .null) = .error ()
      ∧ checkNoNetworkConnection (.httpError 0 false [] .undefined) = .error ()
      ∧ serverErrorInterceptorV2 (.error (.httpError 0 false [] .null))
        = ⟨[], 0, .error .typeError⟩ :=
  ⟨rfl, rfl, rfl⟩

/-! ## C4 -/

/-- C4: every raw HttpErrorResponse with no header keys, ok false, status
0 and an error body exhibiting no byte counters (a dereferenceable body
whose loaded and total are falsy) is replaced by a synthesized
HttpNoNetworkConnectionError with wasCaught true, exactly one
no-connection notification fires, and the replaced error is propagated;
the downstream tapError stage reads the wasCaught mark and hands it to
its callback, so the caller can avoid a second notification for the same
request. -/
theorem c4_network_unreachable_interception (body : JsValue)
    (hnn : isNullish body = false)
    (hl : truthy (getProp body "loaded") = false)
    (ht : truthy (getProp body "total") = false) :
    serverErrorInterceptorV2 (.error (.httpError 0 false [] body))
        = ⟨[noConnectionMsg], 1, .error (.noNetworkError true)⟩
      ∧ tapErrorCatch (.noNetworkError true) = ((.noNetworkError true, true), none) := by
  refine ⟨?_, rfl⟩
  simp [serverErrorInterceptorV2, interceptErrorV2, checkNoNetworkConnection, hnn, hl, ht]

/-- C4 witness: Scenario B — a raw error whose error body is an empty
object (no headers, ok false, no status, no byte counters). -/
theorem c4_network_unreachable_interception_witness :
    isNullish (.obj []) = false
      ∧ serverErrorInterceptorV2 (.error (.httpError 0 false [] (.obj [])))
          = ⟨[noConnectionMsg], 1, .error (.noNetworkError true)⟩
      ∧ tapErrorCatch (.noNetworkError true) = ((.noNetworkError true, true), none) :=
  ⟨rfl, (c4_network_unreachable_interception (.obj []) rfl rfl rfl).1,
    (c4_network_unreachable_interception (.obj []) rfl rfl rfl).2⟩

/-! ## C8 and C9 -/

/-- Characterization of the tapUploadProgress operator on HttpEvents: the
callback fires exactly on upload-progress events with a present, nonzero
total, reporting round(100 * loaded / total). -/
theorem tapUploadProgressCall_eq (e : HttpEventM) :
    tapUploadProgressCall (.event e)
      = if isReportableProgress e then some (reportedPercent e) else none := by
  cases e with
  | uploadProgress l t =>
      cases t with
      | none =>
          simp [tapUploadProgressCall, runtimeOf, eventRuntime, isReportableProgress,
            getProp, lookupField, truthy]
      | some n =>
          by_cases hn : n = 0 <;>
            simp [tapUploadProgressCall, runtimeOf, eventRuntime, isReportableProgress,
              reportedPercent, getProp, lookupField, truthy, strictEqNum, getNumD,
              isPlainObject, hn]
  | downloadProgress l t =>
      cases t <;>
        simp [tapUploadProgressCall, runtimeOf, eventRuntime, isReportableProgress,
          getProp, lookupField, strictEqNum]
  | sent =>
      simp [tapUploadProgressCall, runtimeOf, eventRuntime, isReportableProgress,
        getProp, lookupField, strictEqNum]
  | user =>
      simp [tapUploadProgressCall, runtimeOf, eventRuntime, isReportableProgress,
        getProp, lookupField, strictEqNum]
  | responseHeader st ok hk =>
      simp [tapUploadProgressCall, runtimeOf, eventRuntime, isReportableProgress,
        isPlainObject]
  | response st ok hk body =>
      simp [tapUploadProgressCall, runtimeOf, eventRuntime, isReportableProgress,
        isPlainObject]

/-- C8: tapUploadProgress invokes its callback if and only if the stream
event is an upload-progress event whose total is present and nonzero, and
then reports round(100 * loaded / total); events with total unset never
report.  In particular loaded five million of total ten million reports
fifty. -/
theorem c8_progress_condition :
    (∀ e : HttpEventM,
        tapUploadProgressCall (.event e)
          = if isReportableProgress e then some (reportedPercent e) else none)
      ∧ tapUploadProgressCall (.event (.uploadProgress 5000000 (some 10000000)))
          = some 50 := by
  refine ⟨fun e => tapUploadProgressCall_eq e, ?_⟩
  decide

/-- With a nonzero total, the reported percents are simply the rounded
ratios of the loaded values. -/
theorem reportedPercents_eq_map (total : Int) (loadeds : List Int) (h : total ≠ 0) :
    reportedPercents total loadeds
      = loadeds.map (fun l => mathRound (100 * l) total) := by
  induction loadeds with
  | nil => rfl
  | cons l ls ih =>
      simp only [reportedPercents, List.filterMap_cons] at *
      rw [tapUploadProgressCall_eq]
      simp [isReportableProgress, reportedPercent, h, ih]

/-- Monotonicity of the rounded ratio in loaded, for a positive total. -/
theorem mathRound_mono {total a b : Int} (ht : 0 < total) (hab : a ≤ b) :
    mathRound (100 * a) total ≤ mathRound (100 * b) total := by
  have h2t : (0 : Int) ≤ 2 * total := by linarith
  simp only [mathRound, if_neg (by linarith : ¬ total < 0)]
  rw [Int.fdiv_eq_ediv _ h2t, Int.fdiv_eq_ediv _ h2t]
  exact Int.ediv_le_ediv (by linarith) (by linarith)

/-- Range of the rounded ratio: between 0 and 100 when 0 ≤ loaded ≤ total. -/
theorem mathRound_range {total l : Int} (ht : 0 < total) (h0 : 0 ≤ l) (hl : l ≤ total) :
    0 ≤ mathRound (100 * l) total ∧ mathRound (100 * l) total ≤ 100 := by
  have h2t : (0 : Int) ≤ 2 * total := by linarith
  simp only [mathRound, if_neg (by linarith : ¬ total < 0)]
  constructor
  · exact Int.fdiv_nonneg (by linarith) h2t
  · rw [Int.fdiv_eq_ediv _ h2t]
    have step1 : (2 * (100 * l) + total) / (2 * total) ≤ (total + 2 * total * 100) / (2 * total) :=
      Int.ediv_le_ediv (by linarith) (by linarith)
    have step2 : (total + 2 * total * 100) / (2 * total) = total / (2 * total) + 100 :=
      Int.add_mul_ediv_left total 100 (by linarith)
    have step3 : total / (2 * total) = 0 :=
      Int.ediv_eq_zero_of_lt (by linarith) (by linarith)
    omega

/-- C9 counterexample.  The loaded sequence five then twenty with fixed
nonzero total ten is strictly increasing, yet the reported percents are
fifty then two hundred: the second reported percent exceeds one hundred,
so the claimed range does not hold for arbitrary integer progress
events. -/
theorem c9_counterexample :
    (5 : Int) < 20
      ∧ (10 : Int) ≠ 0
      ∧ reportedPercents 10 [5, 20] = [50, 200]
      ∧ ¬ ((200 : Int) ≤ 100) := by
  refine ⟨by decide, by decide, ?_, by decide⟩
  decide

/-- C9 (amended): for every progress-event sequence with strictly
increasing loaded values between 0 and a fixed positive total, the
percents reported by tapUploadProgress are non-decreasing and each lies
between 0 and 100. -/
theorem c9_progress_monotone_amended (total : Int) (loadeds : List Int)
    (ht : 0 < total)
    (hmono : List.Chain' (· < ·) loadeds)
    (hbound : ∀ l ∈ loadeds, 0 ≤ l ∧ l ≤ total) :
    List.Chain' (· ≤ ·) (reportedPercents total loadeds)
      ∧ ∀ p ∈ reportedPercents total loadeds, 0 ≤ p ∧ p ≤ 100 := by
  rw [reportedPercents_eq_map total loadeds (by linarith)]
  constructor
  · rw [List.chain'_map]
    exact hmono.imp (fun a b hab => mathRound_mono ht (le_of_lt hab))
  · intro p hp
    rcases List.mem_map.mp hp with ⟨l, hl, rfl⟩
    exact mathRound_range ht (hbound l hl).1 (hbound l hl).2

/-- C9 witness: total ten, loaded two then five then ten — strictly
increasing within range; reported percents twenty, fifty, one hundred. -/
theorem c9_progress_monotone_amended_witness :
    (0 : Int) < 10
      ∧ List.Chain' (· < ·) [(2 : Int), 5, 10]
      ∧ (∀ l ∈ [(2 : Int), 5, 10], 0 ≤ l ∧ l ≤ 10)
      ∧ List.Chain' (· ≤ ·) (reportedPercents 10 [2, 5, 10])
      ∧ ∀ p ∈ reportedPercents 10 [2, 5, 10], 0 ≤ p ∧ p ≤ 100 := by
  refine ⟨by decide, by norm_num [List.chain'_cons], by decide, ?_⟩
  exact c9_progress_monotone_amended 10 [2, 5, 10] (by decide)
    (by norm_num [List.chain'_cons]) (by decide)

/-! ## C5 -/

/-- C5 counterexample.  For a form whose current value set is empty and a
non-null saved record, the claim requires isFormPristine to be false (the
value set is empty), but the source returns true: Boolean(form.value) is
true for the empty object, and the empty object deep-equals the empty
projection. -/
theorem c5_counterexample :
    isFormPristine (.obj []) (.obj [("a", .num 1)]) = true
      ∧ isPristineSpec (.obj []) (.obj [("a", .num 1)]) = false :=
  ⟨rfl, rfl⟩

/-- C5 (amended): for every form value (an object) and every lastSaved of
the declared DataType-or-null domain, isFormPristine returns true if and
only if lastSaved is non-null and the projection of lastSaved onto the
form's current key set is deep-equal to the form's current value set —
the non-emptiness condition is dropped, since Boolean(form.value) holds
of every object.  In particular the result is false whenever lastSaved is
null. -/
theorem c5_isFormPristine_amended (fields : List (String × JsValue)) (lastSaved : JsValue)
    (hdom : isDataDomain lastSaved = true) :
    isFormPristine (.obj fields) lastSaved
      = isPristineSpecAmended (.obj fields) lastSaved := by
  cases lastSaved <;>
    simp_all [isFormPristine, isPristineSpecAmended, isDataDomain, truthy, isNullish]

/-- C5 witness: a one-field form matching the saved record on that field
(the record's extra key is ignored by the projection). -/
theorem c5_isFormPristine_amended_witness :
    isDataDomain (.obj [("name", .str "a"), ("id", .num 1)]) = true
      ∧ isFormPristine (.obj [("name", .str "a")]) (.obj [("name", .str "a"), ("id", .num 1)])
        = isPristineSpecAmended (.obj [("name", .str "a")]) (.obj [("name", .str "a"), ("id", .num 1)])
      ∧ isFormPristine (.obj [("name", .str "a")]) (.obj [("name", .str "a"), ("id", .num 1)])
        = true
      ∧ isFormPristine (.obj [("name", .str "a")]) .null = false :=
  ⟨rfl, c5_isFormPristine_amended [("name", .str "a")] (.obj [("name", .str "a"), ("id", .num 1)]) rfl,
    by decide, rfl⟩

/-! ## C2 -/

/-- C2: a failure with HTTP status 400 whose body matches the
validation-error envelope is fully absorbed: the interceptor opens no
snackbar for it (the bad-request class is deliberately skipped), the
tapValidationErrors callback runs exactly once with the error payload,
setFormErrors applies the payload's entries to the form in order, and no
error propagates past the operator (the stream completes). -/
theorem c2_validation_absorption (ok : Bool) (hk : List String) (body : JsValue)
    (fs : FormGroupState) (henv : isValidationEnvelope body = true) :
    handleSaveFailure (.httpError 400 ok hk body) fs
      = ⟨[], [body], setFormErrors fs body, none⟩ := by
  have hnet : checkNoNetworkConnection (.httpError 400 ok hk body) = .ok false := by
    simp only [checkNoNetworkConnection]
    split
    · rfl
    · split
      · rfl
      · simp
  simp [handleSaveFailure, interceptorV1Error, hnet, is400ResponseError,
    tapValidationErrorsCatch, errorBody]

/-- C2 witness: Scenario A — a 400 whose body reports a duplicate name on
the name field; the name control ends up with exactly that message under
that code, and the email control keeps its prior (empty) error state. -/
theorem c2_validation_absorption_witness :
    isValidationEnvelope (.obj [("message", .str "Validation failed"),
        ("errors", .arr [.obj [("field", .str "name"), ("code", .str "duplicate_name"),
          ("message", .str "There is already a user with this name.")]])]) = true
      ∧ handleSaveFailure
          (.httpError 400 false []
            (.obj [("message", .str "Validation failed"),
              ("errors", .arr [.obj [("field", .str "name"), ("code", .str "duplicate_name"),
                ("message", .str "There is already a user with this name.")]])]))
          ⟨[("name", none), ("email", none)], none⟩
        = ⟨[], [.obj [("message", .str "Validation failed"),
              ("errors", .arr [.obj [("field", .str "name"), ("code", .str "duplicate_name"),
                ("message", .str "There is already a user with this name.")]])]],
            ⟨[("name", some [("duplicate_name", .str "There is already a user with this name.")]),
              ("email", none)], none⟩, none⟩ := by
  constructor
  · rfl
  · have h := c2_validation_absorption false []
      (.obj [("message", .str "Validation failed"),
        ("errors", .arr [.obj [("field", .str "name"), ("code", .str "duplicate_name"),
          ("message", .str "There is already a user with this name.")]])])
      ⟨[("name", none), ("email", none)], none⟩ rfl
    exact h.trans rfl

/-! ## C6 -/

/-- Folding the last-match accumulator over a list from any start value
yields the list's own last match when there is one, and the start value
otherwise. -/
theorem lastEntryFor_foldl (f : String) (rest : List JsValue) :
    ∀ init, rest.foldl (fun acc e => if f == entryField e then some e else acc) init
      = orDefault (lastEntryFor rest f) init := by
  induction rest with
  | nil => intro init; rfl
  | cons e r ih =>
      intro init
      have hcons : lastEntryFor (e :: r) f
          = orDefault (lastEntryFor r f) (if f == entryField e then some e else none) := by
        simp only [lastEntryFor, List.foldl_cons]
        exact ih (if f == entryField e then some e else none)
      simp only [List.foldl_cons]
      rw [ih, hcons]
      cases h : lastEntryFor r f with
      | some x => simp [orDefault]
      | none => cases hc : (f == entryField e) <;> simp [orDefault, hc]

/-- The forEach of setFormErrors, folded over the whole entries array,
leaves the group errors untouched and gives every control the one-code
error object of the last entry naming it (controls named by no entry are
untouched). -/
theorem foldl_applyEntry (entries : List JsValue) (fs : FormGroupState) :
    entries.foldl applyEntry fs
      = ⟨fs.controls.map (fun c =>
            match lastEntryFor entries c.1 with
            | some e => (c.1, some [(entryCode e, getProp e "message")])
            | none => c),
          fs.groupErrors⟩ := by
  induction entries generalizing fs with
  | nil =>
      simp only [List.foldl_nil, lastEntryFor, List.foldl_nil]
      cases fs with
      | mk cs ge => simp
  | cons e r ih =>
      simp only [List.foldl_cons]
      rw [ih]
      have hcons : ∀ g : String, lastEntryFor (e :: r) g
          = orDefault (lastEntryFor r g) (if g == entryField e then some e else none) := by
        intro g
        simp only [lastEntryFor, List.foldl_cons]
        exact lastEntryFor_foldl g r (if g == entryField e then some e else none)
      simp only [applyEntry, FormGroupState.mk.injEq]
      refine ⟨?_, trivial⟩
      rw [List.map_map]
      apply List.map_congr_left
      intro c _
      simp only [Function.comp_apply, hcons c.1]
      cases h : lastEntryFor r c.1 with
      | some e2 =>
          cases hc : (c.1 == entryField e) <;> simp [h, orDefault, hc]
      | none =>
          cases hc : (c.1 == entryField e) <;> simp [h, orDefault, hc]

/-- C6 counterexample.  On a null payload the source clears only the
form group's own errors and leaves the name control's prior required
error in place, while the claim demands all field errors cleared; and on
a payload carrying two entries for the name field under codes c1 and c2,
the source leaves the name control with only the last entry's code
(setErrors replaces the whole error object), while the claim demands both
codes written.  Hence setFormErrors differs from the claimed mapping at
these inputs. -/
theorem c6_counterexample :
    (setFormErrors fs0C6 .null).controls
        = [("name", some [("required", .str "req")]), ("email", none)]
      ∧ (specSetFormErrors fs0C6 .null).controls
        = [("name", none), ("email", none)]
      ∧ (setFormErrors fs0C6 payloadC6).controls
        = [("name", some [("c2", .str "m2")]), ("email", none)]
      ∧ (specSetFormErrors fs0C6 payloadC6).controls
        = [("name", some [("c1", .str "m1"), ("c2", .str "m2")]), ("email", none)]
      ∧ setFormErrors fs0C6 .null ≠ specSetFormErrors fs0C6 .null
      ∧ setFormErrors fs0C6 payloadC6 ≠ specSetFormErrors fs0C6 payloadC6 := by
  refine ⟨rfl, rfl, rfl, rfl, ?_, ?_⟩
  · intro h
    exact absurd (congrArg (fun s => s.controls.map (fun c => c.2.isSome)) h) (by decide)
  · intro h
    exact absurd (congrArg (fun s => s.controls.map (fun c => (c.2.getD []).length)) h)
      (by decide)

/-- C6 (amended): with a falsy payload or falsy errors property,
setFormErrors sets the form group's own errors to null and leaves every
field error untouched; otherwise it processes the entries in order so
that each mentioned control ends up with exactly the one-code error
object {code: message} of the last entry naming it (an entry wholly
replaces the control's previous error object, so earlier codes for the
same field are lost), controls not mentioned and the group errors keep
their prior state, and unknown field names are skipped. -/
theorem c6_setFormErrors_amended (fs : FormGroupState) (payload : JsValue) :
    setFormErrors fs payload = amendedSetFormErrors fs payload := by
  simp only [setFormErrors, amendedSetFormErrors]
  split
  · rfl
  · split
    · rw [foldl_applyEntry]
    · rfl

/-! ## C7 -/

/-- No per-event processing of the save pipeline performs the in-flight
reset: the actions of tapResponseData and tapUploadProgress are data
stores, form restores, notifications and progress values. -/
theorem saveEventActions_no_reset (e : HttpEventM) :
    ∀ a ∈ saveEventActions e, isSavingReset a = false := by
  intro a ha
  simp only [saveEventActions, List.mem_append] at ha
  rcases ha with ha | ha
  · rcases h : tapResponseDataCall (.event e) with _ | d
    · rw [h] at ha; simp at ha
    · rw [h] at ha; simp at ha
      rcases ha with rfl | rfl | rfl <;> rfl
  · rcases h : tapUploadProgressCall (.event e) with _ | p
    · rw [h] at ha; simp at ha
    · rw [h] at ha; simp at ha
      subst ha; rfl

/-- Nor does the terminal processing (tapValidationErrors) perform it. -/
theorem saveTerminalActions_no_reset (terminal : Option ErrorValue) :
    ∀ a ∈ (saveTerminalActions terminal).1, isSavingReset a = false := by
  intro a ha
  cases terminal with
  | none => simp [saveTerminalActions] at ha
  | some err =>
      simp only [saveTerminalActions] at ha
      rcases h : tapValidationErrorsCatch err with ⟨_ | caught, prop⟩
      · rw [h] at ha; simp at ha
      · rw [h] at ha; simp at ha
        subst ha; rfl

/-- C7: for every delivered save stream (any events, terminating in
completion, a validation failure, or any other failure), the pipeline
performs the in-flight reset (isSaveRequestInProgress := false followed by
uploadProgress := 0) exactly once, and it is the final pair of actions of
the run — after every event-processing and terminal-processing action, so
never before the stream signals completion, and never skipped whatever
the outcome kind. -/
theorem c7_inflight_reset (events : List HttpEventM) (terminal : Option ErrorValue) :
    ((saveRun events terminal).1.countP isSavingReset = 1)
      ∧ ∃ pre, (saveRun events terminal).1
            = pre ++ [UiAction.setSaving false, UiAction.setProgress 0]
          ∧ pre.countP isSavingReset = 0
          ∧ pre = UiAction.setSaving true ::
              ((events.map saveEventActions).flatten ++ (saveTerminalActions terminal).1) := by
  have hpre : ∀ a ∈ UiAction.setSaving true ::
      ((events.map saveEventActions).flatten ++ (saveTerminalActions terminal).1),
      isSavingReset a = false := by
    intro a ha
    rcases List.mem_cons.mp ha with rfl | ha
    · rfl
    rcases List.mem_append.mp ha with ha | ha
    · rcases List.mem_flatten.mp ha with ⟨l, hl, hal⟩
      rcases List.mem_map.mp hl with ⟨e, _, rfl⟩
      exact saveEventActions_no_reset e a hal
    · exact saveTerminalActions_no_reset terminal a ha
  have hzero : (UiAction.setSaving true ::
      ((events.map saveEventActions).flatten ++ (saveTerminalActions terminal).1)).countP
        isSavingReset = 0 :=
    List.countP_eq_zero.mpr (by intro a ha; simp [hpre a ha])
  have hshape : (saveRun events terminal).1
      = (UiAction.setSaving true ::
          ((events.map saveEventActions).flatten ++ (saveTerminalActions terminal).1))
        ++ [UiAction.setSaving false, UiAction.setProgress 0] := by
    simp [saveRun]
  refine ⟨?_, _, hshape, hzero, rfl⟩
  rw [hshape, List.countP_append, hzero]
  rfl
